import Mathlib

/-!
Shallow embedding of the `envconfig` package (`src/loader.go` and the
`Value` interface file), together with theorems settling the frozen claims.

The Go source binds a caller-supplied struct from the process environment
(`Process`, and the older `LoadConfig` variant that appears first in
`loader.go`) or from command-line flags (`ProcessFlags`).  Records are
embedded as lists of fields carrying a name, a struct-tag association
list, a reflection kind and a current value; the environment is a total
function `String → String` (Go's `os.Getenv` returns `""` for unset
variables, which is exactly the empty-string sentinel the code tests).
-/

namespace Envconfig

/-- The reflection kinds the loader distinguishes (`reflect.Kind` values
that occur in the switches of `Process`, the first `LoadConfig` variant,
and `ProcessFlags`), plus representatives of the kinds none of the
switches mention (`ptr`, `struct_`, `slice`, `map_`, `other`). -/
inductive Kind
  | int | int8 | int16 | int32 | int64
  | uint | uint8 | uint16 | uint32 | uint64
  | float32 | float64
  | string | bool
  | ptr | struct_ | slice | map_ | other
deriving DecidableEq, Repr

/-- Value of a float-typed field.  `strconv.ParseFloat` also recognises
signed infinities and NaN, so those get explicit constructors; a finite
value is kept as an exact rational (see `parseFloatGo`). -/
inductive FloatVal
  | finite (q : ℚ)
  | inf (neg : Bool)
  | nan
deriving DecidableEq, Repr

/-- The native value stored in a record field.  `vother` stands for the
state of a field whose kind the loader does not handle (pointer, struct,
slice, map, ...); its payload is an opaque description of that state. -/
inductive GoValue
  | vint (n : ℤ)
  | vuint (n : ℕ)
  | vfloat (v : FloatVal)
  | vstring (s : String)
  | vbool (b : Bool)
  | vother (state : String)
deriving DecidableEq, Repr

/-- One struct field: its Go name, its struct-tag set (an association
list, first binding wins, as in `reflect.StructTag`), its reflection
kind and its current value. -/
structure Field where
  name : String
  tags : List (String × String)
  kind : Kind
  value : GoValue
deriving DecidableEq, Repr

/-- A record is the ordered list of its fields. -/
abbrev Record := List Field

/-- The process environment: `os.Getenv` semantics, `""` when unset. -/
abbrev Env := String → String

/-- `reflect.StructTag.Lookup`: the tag value and whether it is present. -/
def tagLookup (tags : List (String × String)) (key : String) : Option String :=
  (tags.find? (fun p => p.1 = key)).map Prod.snd

/-- `reflect.StructTag.Get`: like `tagLookup` but `""` when absent. -/
def tagGet (tags : List (String × String)) (key : String) : String :=
  (tagLookup tags key).getD ""

/-! ### `strconv` parsing -/

/-- Strip one leading sign, returning whether it was `-` and the rest. -/
def splitSign : List Char → Bool × List Char
  | '-' :: cs => (true, cs)
  | '+' :: cs => (false, cs)
  | cs => (false, cs)

/-- Decimal digits to the number they denote; `none` when the list is
empty or contains a non-digit (the syntax-error cases of `strconv`). -/
def digitsVal : List Char → Option ℕ
  | [] => none
  | cs => cs.foldl
      (fun acc c =>
        match acc with
        | none => none
        | some a => if c.isDigit then some (a * 10 + (c.toNat - 48)) else none)
      (some 0)

/-- `strconv.Atoi` = `ParseInt(s, 10, 0)` with `int` 64 bits wide:
optional sign, then one or more decimal digits, value within the signed
64-bit range; any violation (including range overflow) makes `Atoi`
return a non-nil error, modelled as `none`. -/
def atoi (s : String) : Option ℤ :=
  match s.toList with
  | [] => none
  | cs =>
    let p := splitSign cs
    match digitsVal p.2 with
    | none => none
    | some m =>
      let v : ℤ := if p.1 then -(m : ℤ) else (m : ℤ)
      if -(2 ^ 63) ≤ v ∧ v < 2 ^ 63 then some v else none

/-- `strconv.ParseUint(s, 10, 64)`: no sign permitted at all, one or
more decimal digits, value below `2^64`; errors are `none`. -/
def parseUint64 (s : String) : Option ℕ :=
  match digitsVal s.toList with
  | none => none
  | some m => if m < 2 ^ 64 then some m else none

/-- Longest prefix of decimal digits and the remainder. -/
def takeDigits : List Char → List Char × List Char
  | [] => ([], [])
  | c :: cs =>
    if c.isDigit then
      let p := takeDigits cs
      (c :: p.1, p.2)
    else ([], c :: cs)

/-- Digit list to the natural number it denotes (empty list is 0). -/
def digitsToNat (ds : List Char) : ℕ :=
  ds.foldl (fun a c => a * 10 + (c.toNat - 48)) 0

/-- ASCII lower-casing of a character list. -/
def lowerChars (cs : List Char) : List Char :=
  cs.map Char.toLower

/-- `strings.ToLower`, modelled for ASCII text (the field names and tag
values of this repository are ASCII). -/
def stringToLower (s : String) : String :=
  ⟨lowerChars s.data⟩

/-- The special forms `strconv.ParseFloat` recognises case-insensitively:
`nan` (unsigned only) and optionally signed `inf` / `infinity`. -/
def parseSpecial (cs : List Char) : Option FloatVal :=
  if lowerChars cs = "nan".toList then some .nan
  else
    let p := splitSign cs
    if lowerChars p.2 = "inf".toList ∨ lowerChars p.2 = "infinity".toList then
      some (.inf p.1)
    else none

/-- Signed decimal mantissa and power-of-ten exponent, as an exact
rational. -/
def mkFloat (neg : Bool) (m : ℕ) (e : ℤ) : ℚ :=
  (if neg then -1 else 1) * (m : ℚ) * (10 : ℚ) ^ e

/-- `strconv.ParseFloat(s, 64)`, modelled on its accepted decimal syntax:
optional sign, decimal mantissa with optional fraction part (at least one
digit overall), optional decimal exponent, plus the `inf`/`nan` specials.
Hexadecimal float literals and digit-separating underscores are not
modelled, and the finite value is kept as an exact rational rather than
rounded to IEEE-754 binary64; no theorem below depends on a rounded
float value or on those literal forms. -/
def parseFloatGo (s : String) : Option FloatVal :=
  let cs := s.toList
  match parseSpecial cs with
  | some v => some v
  | none =>
    let p0 := splitSign cs
    let pInt := takeDigits p0.2
    let pFrac :=
      match pInt.2 with
      | '.' :: r => takeDigits r
      | _ => ([], pInt.2)
    let rest := match pInt.2 with
      | '.' :: r => (takeDigits r).2
      | _ => pInt.2
    if pInt.1 = [] ∧ pFrac.1 = [] then none
    else
      let m := digitsToNat (pInt.1 ++ pFrac.1)
      let e0 : ℤ := -(pFrac.1.length : ℤ)
      match rest with
      | [] => some (.finite (mkFloat p0.1 m e0))
      | c :: r3 =>
        if c = 'e' ∨ c = 'E' then
          let pe := splitSign r3
          let ped := takeDigits pe.2
          if ped.1 = [] ∨ ped.2 ≠ [] then none
          else
            let e : ℤ := (digitsToNat ped.1 : ℤ)
            some (.finite (mkFloat p0.1 m (e0 + (if pe.1 then -e else e))))
        else none

/-! ### Kind classification and assignment truncation -/

/-- The kinds grouped by the `case reflect.Int, ... reflect.Int64` line. -/
def Kind.isIntKind : Kind → Bool
  | .int | .int8 | .int16 | .int32 | .int64 => true
  | _ => false

/-- The kinds grouped by the `case reflect.Uint, ... reflect.Uint64` line. -/
def Kind.isUintKind : Kind → Bool
  | .uint | .uint8 | .uint16 | .uint32 | .uint64 => true
  | _ => false

/-- The kinds grouped by the `case reflect.Float32, reflect.Float64` line. -/
def Kind.isFloatKind : Kind → Bool
  | .float32 | .float64 => true
  | _ => false

/-- The kinds `Process`'s switch handles at all. -/
def Kind.supportedProcess (k : Kind) : Bool :=
  k.isIntKind || k.isUintKind || k.isFloatKind || k = .string || k = .bool

/-- The kinds `ProcessFlags`'s switch handles (everything else hits the
`default` case and is an error). -/
def Kind.supportedFlags : Kind → Bool
  | .int64 | .uint64 | .float32 | .float64 | .string | .bool => true
  | _ => false

/-- Bit width of a signed integer kind (`int` is 64 bits on the
platforms the package targets). -/
def Kind.intBits : Kind → ℕ
  | .int8 => 8
  | .int16 => 16
  | .int32 => 32
  | _ => 64

/-- Bit width of an unsigned integer kind. -/
def Kind.uintBits : Kind → ℕ
  | .uint8 => 8
  | .uint16 => 16
  | .uint32 => 32
  | _ => 64

/-- Two's-complement truncation performed by `reflect.Value.SetInt` when
the declared field is narrower than 64 bits. -/
def truncInt (bits : ℕ) (n : ℤ) : ℤ :=
  (n + 2 ^ (bits - 1)) % (2 ^ bits : ℤ) - 2 ^ (bits - 1)

/-- Truncation performed by `reflect.Value.SetUint`. -/
def truncUint (bits : ℕ) (n : ℕ) : ℕ :=
  n % 2 ^ bits

/-! ### Errors and binding outcomes -/

/-- The failure conditions of the binding calls, carrying the data the
`fmt.Sprintf` messages interpolate.  `handleError` only additionally
echoes the message to stderr when `showErrors` is set, which does not
affect any returned value and is not modelled. -/
inductive BindError
  | notAPointer
  | missingKeyTag (field : String)
  | requiredMissing (key field : String)
  | coercion (key raw : String) (kind : Kind)
  | unsupportedKind (kind : Kind) (field : String)
deriving DecidableEq, Repr

/-- The argument passed for `spec`: either a pointer to a struct record
or anything whose `reflect.Kind` is not `Ptr` (carrying the caller's
record so that non-mutation is expressible). -/
inductive SpecArg
  | ptr (r : Record)
  | nonPtr (r : Record)
deriving DecidableEq, Repr

/-- Observable outcome of an environment-mode binding call: the record
as the caller sees it afterwards, and the returned error if any. -/
structure BindOutcome where
  record : Record
  error : Option BindError
deriving DecidableEq, Repr

/-! ### Environment-mode binding (`Process`, `loader.go` final variant) -/

/-- The fallback block of `Process`/`LoadConfig`: when the raw
environment value is empty, substitute a non-empty `default` tag, else
fail if `required` is present, else keep the empty string. -/
def resolveRaw (envTag fieldName : String) (tags : List (String × String))
    (raw : String) : Except BindError String :=
  if raw = "" then
    let d := tagGet tags "default"
    if d ≠ "" then .ok d
    else if (tagLookup tags "required").isSome then
      .error (.requiredMissing envTag fieldName)
    else .ok ""
  else .ok raw

/-- The kind switch of `Process`: coerce the resolved raw text and
assign it into the field.  A kind matching no case leaves the field
untouched (Go `switch` without a `default` arm). -/
def coerceProcess (envTag raw : String) (f : Field) : Except BindError Field :=
  if f.kind.isIntKind then
    match atoi raw with
    | some n => .ok { f with value := .vint (truncInt f.kind.intBits n) }
    | none => .error (.coercion envTag raw f.kind)
  else if f.kind.isUintKind then
    match parseUint64 raw with
    | some n => .ok { f with value := .vuint (truncUint f.kind.uintBits n) }
    | none => .error (.coercion envTag raw f.kind)
  else if f.kind = .string then .ok { f with value := .vstring raw }
  else if f.kind.isFloatKind then
    match parseFloatGo raw with
    | some v => .ok { f with value := .vfloat v }
    | none => .error (.coercion envTag raw f.kind)
  else if f.kind = .bool then
    if raw = "0" then .ok { f with value := .vbool false }
    else if raw = "1" then .ok { f with value := .vbool true }
    else .error (.coercion envTag raw f.kind)
  else .ok f

/-- One loop iteration of `Process` for one field: look up the `env`
tag (its absence is a hard error), read the environment, run the
fallback block, then the kind switch. -/
def processField (env : Env) (f : Field) : Except BindError Field :=
  match tagLookup f.tags "env" with
  | none => .error (.missingKeyTag f.name)
  | some envTag =>
    match resolveRaw envTag f.name f.tags (env envTag) with
    | .error e => .error e
    | .ok raw => coerceProcess envTag raw f

/-- The field loop of `Process`: fields in declaration order, first
error terminal, earlier fields keep their newly assigned values and the
failing field and all later ones keep their prior values. -/
def processFields (env : Env) : List Field → List Field × Option BindError
  | [] => ([], none)
  | f :: fs =>
    match processField env f with
    | .error e => (f :: fs, some e)
    | .ok f' =>
      let r := processFields env fs
      (f' :: r.1, r.2)

/-- `Process(spec, showErrors)`: reject a non-pointer argument before
touching any field, otherwise run the field loop on the pointed-to
record.  `showErrors` only gates the stderr echo inside `handleError`
and has no influence on the outcome. -/
def Process (spec : SpecArg) (showErrors : Bool) (env : Env) : BindOutcome :=
  match spec, showErrors with
  | .nonPtr r, _ => ⟨r, some .notAPointer⟩
  | .ptr r, _ =>
    let p := processFields env r
    ⟨p.1, p.2⟩

/-- `LoadConfig(cfg, showErrors)` (final variant): delegates to
`Process` and returns the pointer alongside the error. -/
def LoadConfig (cfg : SpecArg) (showErrors : Bool) (env : Env) :
    BindOutcome × Option BindError :=
  let o := Process cfg showErrors env
  (o, o.error)

/-! ### Environment-mode binding, first `LoadConfig` variant

The first version of `loader.go` (the opening segment of the file)
differs from `Process` in its kind switch: no unsigned-integer cases at
all, and the boolean case is the lenient `fld.SetBool(raw != "")`. -/

/-- The kind switch of the first `LoadConfig` variant. -/
def coerceV1 (envTag raw : String) (f : Field) : Except BindError Field :=
  if f.kind.isIntKind then
    match atoi raw with
    | some n => .ok { f with value := .vint (truncInt f.kind.intBits n) }
    | none => .error (.coercion envTag raw f.kind)
  else if f.kind = .string then .ok { f with value := .vstring raw }
  else if f.kind.isFloatKind then
    match parseFloatGo raw with
    | some v => .ok { f with value := .vfloat v }
    | none => .error (.coercion envTag raw f.kind)
  else if f.kind = .bool then .ok { f with value := .vbool (raw ≠ "") }
  else .ok f

/-- One loop iteration of the first `LoadConfig` variant: identical tag
lookup and fallback block, then the `coerceV1` switch. -/
def processFieldV1 (env : Env) (f : Field) : Except BindError Field :=
  match tagLookup f.tags "env" with
  | none => .error (.missingKeyTag f.name)
  | some envTag =>
    match resolveRaw envTag f.name f.tags (env envTag) with
    | .error e => .error e
    | .ok raw => coerceV1 envTag raw f

/-- The field loop of the first `LoadConfig` variant. -/
def processFieldsV1 (env : Env) : List Field → List Field × Option BindError
  | [] => ([], none)
  | f :: fs =>
    match processFieldV1 env f with
    | .error e => (f :: fs, some e)
    | .ok f' =>
      let r := processFieldsV1 env fs
      (f' :: r.1, r.2)

/-- The first `LoadConfig` variant: on any error it returns `nil` for
the interface result (hence `none` in the first component) together
with the error; on success, the bound record. -/
def LoadConfigV1 (cfg : SpecArg) (showErrors : Bool) (env : Env) :
    Option Record × Option BindError :=
  match cfg, showErrors with
  | .nonPtr _, _ => (none, some .notAPointer)
  | .ptr r, _ =>
    match processFieldsV1 env r with
    | (r', none) => (some r', none)
    | (_, some e) => (none, some e)

/-! ### Flag-mode binding (`ProcessFlags`)

Flag registration (`flag.Int64Var` and friends) assigns the given
default into the target location immediately; the later `flag.Parse()`
then overwrites registered targets from the command line.  The model
captures the state after registration: the registered name / default /
usage per field, and the record with defaults written in.  The
command-line parse step itself involves process-global state and is not
consulted by any claim. -/

/-- `strconv.ParseInt(s, 10, 64)` with its error ignored, as in the
default computation of `ProcessFlags`: a syntax error leaves the
returned value 0, a range error leaves it clamped to the signed 64-bit
bound of the matching sign. -/
def parseInt64Lax (s : String) : ℤ :=
  match s.toList with
  | [] => 0
  | cs =>
    let p := splitSign cs
    match digitsVal p.2 with
    | none => 0
    | some m =>
      let v : ℤ := if p.1 then -(m : ℤ) else (m : ℤ)
      if v < -(2 ^ 63) then -(2 ^ 63)
      else if 2 ^ 63 ≤ v then 2 ^ 63 - 1
      else v

/-- `strconv.ParseUint(s, 10, 64)` with its error ignored: 0 on a
syntax error, the unsigned 64-bit maximum on a range error. -/
def parseUint64Lax (s : String) : ℕ :=
  match digitsVal s.toList with
  | none => 0
  | some m => if m < 2 ^ 64 then m else 2 ^ 64 - 1

/-- `strconv.ParseFloat(s, 64)` with its error ignored: 0 on a syntax
error. -/
def parseFloatLax (s : String) : FloatVal :=
  (parseFloatGo s).getD (.finite 0)

/-- One registration made against the flag package: the flag's name,
its registered default and its usage text. -/
structure FlagReg where
  name : String
  defVal : GoValue
  usage : String
deriving DecidableEq, Repr

/-- The name computation of `ProcessFlags`: the lower-cased field name,
overridden by the `flag` tag when that tag is present. -/
def flagName (f : Field) : String :=
  match tagLookup f.tags "flag" with
  | some fName => fName
  | none => stringToLower f.name

/-- One loop iteration of `ProcessFlags`: read the `default` and
`usage` tags, resolve the name, then dispatch on the field kind.  Both
float kinds register through `flag.Float64Var`; booleans always
register with default `false` (the source comment: the default is set
to false so that the flag is only true when set); any other kind hits
the `default` arm and is an unsupported-type error. -/
def registerField (f : Field) : Except BindError FlagReg :=
  let defaultVal := tagGet f.tags "default"
  let usageVal := tagGet f.tags "usage"
  let name := flagName f
  match f.kind with
  | .int64 => .ok ⟨name, .vint (parseInt64Lax defaultVal), usageVal⟩
  | .uint64 => .ok ⟨name, .vuint (parseUint64Lax defaultVal), usageVal⟩
  | .float32 => .ok ⟨name, .vfloat (parseFloatLax defaultVal), usageVal⟩
  | .float64 => .ok ⟨name, .vfloat (parseFloatLax defaultVal), usageVal⟩
  | .string => .ok ⟨name, .vstring defaultVal, usageVal⟩
  | .bool => .ok ⟨name, .vbool false, usageVal⟩
  | k => .error (.unsupportedKind k f.name)

/-- The field loop of `ProcessFlags`: each successful registration
writes its default into the field at registration time; the first
unsupported kind aborts the loop, leaving that field and later ones
untouched and unregistered. -/
def registerFields : List Field → List Field × List FlagReg × Option BindError
  | [] => ([], [], none)
  | f :: fs =>
    match registerField f with
    | .error e => (f :: fs, [], some e)
    | .ok reg =>
      let r := registerFields fs
      ({ f with value := reg.defVal } :: r.1, reg :: r.2.1, r.2.2)

/-- Outcome of `ProcessFlags`: the record after registration, the list
of registrations made, and the returned error if any. -/
structure FlagsOutcome where
  record : Record
  regs : List FlagReg
  error : Option BindError
deriving DecidableEq, Repr

/-- `ProcessFlags(spec)`: reject a non-pointer argument before touching
any field, otherwise register every field as a flag. -/
def ProcessFlags (spec : SpecArg) : FlagsOutcome :=
  match spec with
  | .nonPtr r => ⟨r, [], some .notAPointer⟩
  | .ptr r =>
    let p := registerFields r
    ⟨p.1, p.2.1, p.2.2⟩

deriving instance DecidableEq for Except

/-- The zero value of each kind `ProcessFlags` supports (what a flag
falls back to when nothing else supplies a value). -/
def zeroValue : Kind → GoValue
  | .int64 => .vint 0
  | .uint64 => .vuint 0
  | .float32 => .vfloat (.finite 0)
  | .float64 => .vfloat (.finite 0)
  | .string => .vstring ""
  | .bool => .vbool false
  | _ => .vother ""

/-! ### Concrete fixtures used by the claim evaluations and witnesses -/

/-- Environment of the repository test `TestLoader`. -/
def c1Env : Env := fun k =>
  if k = "TEST_STRING" then "foo"
  else if k = "TEST_CUST_VALUE" then "lorem"
  else ""

/-- The `Str string` field of the test struct `testSpec`. -/
def c1StrField : Field := ⟨"Str", [("env", "TEST_STRING")], .string, .vstring ""⟩

/-- The `Val *customValue` field of `testSpec`: its type implements the
`Value` interface with a `Set` that triples its input, and its prior
state is a `customValue` whose `v` is the empty string. -/
def c1ValField : Field :=
  ⟨"Val", [("env", "TEST_CUST_VALUE")], .ptr, .vother "customValue v: empty"⟩

/-- Environment for the C2 witness: the boolean variable holds `"x"`. -/
def c2Env : Env := fun k => if k = "BKEY" then "x" else ""

/-- Boolean field for the C2 witness. -/
def c2Field : Field := ⟨"Flag", [("env", "BKEY")], .bool, .vbool false⟩

/-- Environment for the C3 witness: the boolean variable holds `"1"`. -/
def c3Env : Env := fun k => if k = "CKEY" then "1" else ""

/-- Boolean field for the C3 witness. -/
def c3Field : Field := ⟨"Strict", [("env", "CKEY")], .bool, .vbool false⟩

/-- Required field with no default for the C4 witness. -/
def c4ReqField : Field := ⟨"Bar", [("env", "BAR"), ("required", "true")], .string, .vstring ""⟩

/-- Field with `default:"5"` for the C4 witness. -/
def c4DefField : Field := ⟨"Foo", [("env", "FOO"), ("default", "5")], .int, .vint 0⟩

/-- Environment for the C4 witness: everything unset. -/
def c4Env : Env := fun _ => ""

/-- C7 witness fields: the first binds, the second fails `Atoi`. -/
def c7F0 : Field := ⟨"A", [("env", "K0")], .int, .vint 0⟩

/-- Second C7 witness field, whose raw value is not numeric. -/
def c7F1 : Field := ⟨"B", [("env", "K1")], .int, .vint 0⟩

/-- Third C7 witness field, never reached by the loop. -/
def c7F2 : Field := ⟨"C", [("env", "K2")], .string, .vstring "old"⟩

/-- Environment for the C7 witness. -/
def c7Env : Env := fun k => if k = "K0" then "7" else if k = "K1" then "abc" else ""

/-- Field carrying a `flagname` tag (the tag the claim names) but no
`flag` tag (the tag the code reads). -/
def c8Field : Field := ⟨"Foo", [("flagname", "bar")], .string, .vstring ""⟩

/-- Boolean field with `default:"1"` for C9. -/
def c9Field : Field := ⟨"Verbose", [("default", "1")], .bool, .vbool false⟩

/-- Pointer-kind field tagged `required`, environment unset, for C10. -/
def c10Field : Field := ⟨"P", [("env", "KP"), ("required", "true")], .ptr, .vother "nil"⟩

/-- Empty environment for the C10 counterexample. -/
def c10Env : Env := fun _ => ""

/-- Slice-kind field whose variable is set, for the C10 witness. -/
def c10SkipField : Field := ⟨"Q", [("env", "KQ")], .slice, .vother "slice contents"⟩

/-- Environment for the C10 witness. -/
def c10SkipEnv : Env := fun k => if k = "KQ" then "xs" else ""

/-! ## Helper lemmas -/

/-- Looking up a tag key is unaffected by a binding for a different key. -/
theorem tagLookup_cons_ne (k1 k2 v : String) (tags : List (String × String))
    (h : k1 ≠ k2) : tagLookup ((k1, v) :: tags) k2 = tagLookup tags k2 := by
  simp [tagLookup, List.find?, h]

/-- The kind switch of `Process` can fail only with a coercion error,
never with a required-value error. -/
theorem coerceProcess_ne_requiredMissing (t raw : String) (f : Field) (a b : String) :
    coerceProcess t raw f ≠ .error (.requiredMissing a b) := by
  obtain ⟨n, tags, k, v⟩ := f
  cases k <;>
    simp [coerceProcess, Kind.isIntKind, Kind.isUintKind, Kind.isFloatKind] <;>
    first
      | (cases atoi raw <;> simp)
      | (cases parseUint64 raw <;> simp)
      | (cases parseFloatGo raw <;> simp)
      | (split_ifs <;> simp)

/-- If the field loop of `Process` succeeds on the first `i` fields and
fails on the `i`-th, the error is returned, fields from `i` on are
unchanged and fields before `i` hold their newly bound values. -/
theorem processFields_fail (env : Env) :
    ∀ (l : List Field) (i : ℕ) (hi : i < l.length) (e : BindError),
      (∀ j (hj : j < i), (processField env (l.get ⟨j, hj.trans hi⟩)).isOk = true) →
      processField env (l.get ⟨i, hi⟩) = .error e →
      (processFields env l).2 = some e ∧
      (processFields env l).1.drop i = l.drop i ∧
      List.Forall₂ (fun f f' => processField env f = .ok f')
        (l.take i) ((processFields env l).1.take i) := by
  intro l
  induction l with
  | nil => intro i hi; exact absurd hi (by simp)
  | cons f fs ih =>
    intro i hi e hok hfail
    cases i with
    | zero =>
      have hf : processField env f = .error e := hfail
      simp [processFields, hf]
    | succ i' =>
      have h0 : (processField env f).isOk = true := hok 0 (Nat.succ_pos i')
      obtain ⟨f', hf'⟩ : ∃ f', processField env f = .ok f' := by
        cases hpf : processField env f with
        | ok a => exact ⟨a, rfl⟩
        | error b => rw [hpf] at h0; simp [Except.isOk, Except.toBool] at h0
      have hi' : i' < fs.length := by simpa using hi
      have ihres := ih i' hi' e
        (fun j hj => hok (j + 1) (Nat.succ_lt_succ hj)) hfail
      have hPF : processFields env (f :: fs) =
          (f' :: (processFields env fs).1, (processFields env fs).2) := by
        simp [processFields, hf']
      refine ⟨?_, ?_, ?_⟩
      · rw [hPF]; exact ihres.1
      · rw [hPF]; simpa using ihres.2.1
      · rw [hPF, List.take_succ_cons, List.take_succ_cons]
        exact List.Forall₂.cons hf' ihres.2.2

/-! ## Claims -/

/-- Claim C1 (code bug): the spec and the repository's own test
`TestLoader` require that a field whose type implements the `Value`
interface receives the raw text through its `Set` hook (so that the
tripling hook, fed `"lorem"`, leaves `"loremloremlorem"` in the bound
record), but `Process` never consults the `Value` interface: on the
test's own input the custom-typed field matches no case of the kind
switch, `Set` is never invoked, the field keeps its prior state and no
error is reported.  This theorem evaluates the code on the failing
input. -/
theorem c1_hook_never_invoked :
    Process (.ptr [c1StrField, c1ValField]) true c1Env =
      ⟨[{ c1StrField with value := .vstring "foo" }, c1ValField], none⟩ := by
  decide

/-- Claim C2: for a boolean-kind field bound in environment mode (the
first `LoadConfig` variant in `loader.go`), coercion never fails: any
non-empty resolved raw text (after default substitution) yields `true`,
an empty one yields `false`, and in particular an absent variable with
no default and no required tag yields `false`. -/
theorem c2_env_mode_bool_total (env : Env) (f : Field) (k r : String)
    (hkind : f.kind = Kind.bool)
    (htag : tagLookup f.tags "env" = some k)
    (hres : resolveRaw k f.name f.tags (env k) = .ok r) :
    (r ≠ "" → processFieldV1 env f = .ok { f with value := .vbool true }) ∧
    (r = "" → processFieldV1 env f = .ok { f with value := .vbool false }) ∧
    (env k = "" → tagGet f.tags "default" = "" → tagLookup f.tags "required" = none →
      processFieldV1 env f = .ok { f with value := .vbool false }) := by
  have hmain : processFieldV1 env f = coerceV1 k r f := by
    simp [processFieldV1, htag, hres]
  refine ⟨?_, ?_, ?_⟩
  · intro hr
    rw [hmain]
    simp [coerceV1, hkind, Kind.isIntKind, Kind.isFloatKind, hr]
  · intro hr
    subst hr
    rw [hmain]
    simp [coerceV1, hkind, Kind.isIntKind, Kind.isFloatKind]
  · intro h1 h2 h3
    have hr : r = "" := by
      rw [h1] at hres
      simp [resolveRaw, h2, h3] at hres
      exact hres.symm
    subst hr
    rw [hmain]
    simp [coerceV1, hkind, Kind.isIntKind, Kind.isFloatKind]

/-- Witness for C2 at the concrete field `c2Field` and environment
`c2Env`, whose raw value is the non-empty text `"x"`. -/
theorem c2_env_mode_bool_total_witness :
    (("x" : String) ≠ "" → processFieldV1 c2Env c2Field = .ok { c2Field with value := .vbool true }) ∧
    (("x" : String) = "" → processFieldV1 c2Env c2Field = .ok { c2Field with value := .vbool false }) ∧
    (c2Env "BKEY" = "" → tagGet c2Field.tags "default" = "" →
      tagLookup c2Field.tags "required" = none →
      processFieldV1 c2Env c2Field = .ok { c2Field with value := .vbool false }) :=
  c2_env_mode_bool_total c2Env c2Field "BKEY" "x" rfl (by decide) (by decide)

/-- Claim C3: under the strict flag/Process-mode rule for boolean-kind
fields, resolved raw text exactly `"1"` yields `true`, exactly `"0"`
yields `false`, and anything else fails the binding with a coercion
error. -/
theorem c3_strict_bool (env : Env) (f : Field) (k r : String)
    (hkind : f.kind = Kind.bool)
    (htag : tagLookup f.tags "env" = some k)
    (hres : resolveRaw k f.name f.tags (env k) = .ok r) :
    (r = "1" → processField env f = .ok { f with value := .vbool true }) ∧
    (r = "0" → processField env f = .ok { f with value := .vbool false }) ∧
    (r ≠ "1" → r ≠ "0" → processField env f = .error (.coercion k r Kind.bool)) := by
  have hmain : processField env f = coerceProcess k r f := by
    simp [processField, htag, hres]
  refine ⟨?_, ?_, ?_⟩
  · intro h1
    subst h1
    rw [hmain]
    simp [coerceProcess, hkind, Kind.isIntKind, Kind.isUintKind, Kind.isFloatKind]
  · intro h0
    subst h0
    rw [hmain]
    simp [coerceProcess, hkind, Kind.isIntKind, Kind.isUintKind, Kind.isFloatKind]
  · intro h1 h0
    rw [hmain]
    simp [coerceProcess, hkind, Kind.isIntKind, Kind.isUintKind, Kind.isFloatKind, h1, h0]

/-- Witness for C3 at the concrete field `c3Field` and environment
`c3Env`, whose raw value is `"1"`. -/
theorem c3_strict_bool_witness :
    (("1" : String) = "1" → processField c3Env c3Field = .ok { c3Field with value := .vbool true }) ∧
    (("1" : String) = "0" → processField c3Env c3Field = .ok { c3Field with value := .vbool false }) ∧
    (("1" : String) ≠ "1" → ("1" : String) ≠ "0" →
      processField c3Env c3Field = .error (.coercion "CKEY" "1" Kind.bool)) :=
  c3_strict_bool c3Env c3Field "CKEY" "1" rfl (by decide) (by decide)

/-- Claim C4: in environment mode, when the raw value is empty the
fallback runs in order — non-empty `default` tag first, then a
`required` failure naming the lookup key and the field, then the empty
string is kept; a required field with nothing set and no default fails
with the required-value error (and any non-empty environment text
clears exactly that error), and a `default:"5"` integer field with
nothing set binds to native 5. -/
theorem c4_fallback_order (env : Env) (f : Field) (k n : String)
    (tags : List (String × String))
    (htag : tagLookup f.tags "env" = some k) :
    (tagGet tags "default" ≠ "" → resolveRaw k n tags "" = .ok (tagGet tags "default")) ∧
    (tagGet tags "default" = "" → (tagLookup tags "required").isSome = true →
      resolveRaw k n tags "" = .error (.requiredMissing k n)) ∧
    (tagGet tags "default" = "" → tagLookup tags "required" = none →
      resolveRaw k n tags "" = .ok "") ∧
    (env k = "" → tagGet f.tags "default" = "" → (tagLookup f.tags "required").isSome = true →
      processField env f = .error (.requiredMissing k f.name)) ∧
    (env k ≠ "" → processField env f ≠ .error (.requiredMissing k f.name)) ∧
    (env k = "" → tagGet f.tags "default" = "5" → f.kind = Kind.int →
      processField env f = .ok { f with value := .vint 5 }) := by
  have h5 : atoi "5" = some 5 := by decide
  have h5t : truncInt (Kind.intBits Kind.int) 5 = 5 := by decide
  refine ⟨?_, ?_, ?_, ?_, ?_, ?_⟩
  · intro h
    simp [resolveRaw, h]
  · intro h1 h2
    simp [resolveRaw, h1, h2]
  · intro h1 h2
    simp [resolveRaw, h1, h2]
  · intro h1 h2 h3
    simp [processField, htag, h1, resolveRaw, h2, h3]
  · intro h1
    simp only [processField, htag]
    have hrr : resolveRaw k f.name f.tags (env k) = .ok (env k) := by
      simp [resolveRaw, h1]
    rw [hrr]
    exact coerceProcess_ne_requiredMissing k (env k) f k f.name
  · intro h1 h2 h3
    simp [processField, htag, h1, resolveRaw, h2, coerceProcess, h3,
      Kind.isIntKind, h5, h5t]

/-- Witness for C4 at the concrete fields `c4ReqField` (required, no
default, variable unset) and `c4DefField` (`default:"5"`), both under
the empty environment `c4Env`. -/
theorem c4_fallback_order_witness :
    ((tagGet c4ReqField.tags "default" ≠ "" →
      resolveRaw "BAR" "Bar" c4ReqField.tags "" = .ok (tagGet c4ReqField.tags "default")) ∧
    (tagGet c4ReqField.tags "default" = "" →
      (tagLookup c4ReqField.tags "required").isSome = true →
      resolveRaw "BAR" "Bar" c4ReqField.tags "" = .error (.requiredMissing "BAR" "Bar")) ∧
    (tagGet c4ReqField.tags "default" = "" → tagLookup c4ReqField.tags "required" = none →
      resolveRaw "BAR" "Bar" c4ReqField.tags "" = .ok "") ∧
    (c4Env "BAR" = "" → tagGet c4ReqField.tags "default" = "" →
      (tagLookup c4ReqField.tags "required").isSome = true →
      processField c4Env c4ReqField = .error (.requiredMissing "BAR" c4ReqField.name)) ∧
    (c4Env "BAR" ≠ "" → processField c4Env c4ReqField ≠ .error (.requiredMissing "BAR" c4ReqField.name)) ∧
    (c4Env "BAR" = "" → tagGet c4ReqField.tags "default" = "5" → c4ReqField.kind = Kind.int →
      processField c4Env c4ReqField = .ok { c4ReqField with value := .vint 5 })) ∧
    ((tagGet c4DefField.tags "default" ≠ "" →
      resolveRaw "FOO" "Foo" c4DefField.tags "" = .ok (tagGet c4DefField.tags "default")) ∧
    (tagGet c4DefField.tags "default" = "" →
      (tagLookup c4DefField.tags "required").isSome = true →
      resolveRaw "FOO" "Foo" c4DefField.tags "" = .error (.requiredMissing "FOO" "Foo")) ∧
    (tagGet c4DefField.tags "default" = "" → tagLookup c4DefField.tags "required" = none →
      resolveRaw "FOO" "Foo" c4DefField.tags "" = .ok "") ∧
    (c4Env "FOO" = "" → tagGet c4DefField.tags "default" = "" →
      (tagLookup c4DefField.tags "required").isSome = true →
      processField c4Env c4DefField = .error (.requiredMissing "FOO" c4DefField.name)) ∧
    (c4Env "FOO" ≠ "" → processField c4Env c4DefField ≠ .error (.requiredMissing "FOO" c4DefField.name)) ∧
    (c4Env "FOO" = "" → tagGet c4DefField.tags "default" = "5" → c4DefField.kind = Kind.int →
      processField c4Env c4DefField = .ok { c4DefField with value := .vint 5 })) :=
  ⟨c4_fallback_order c4Env c4ReqField "BAR" "Bar" c4ReqField.tags (by decide),
   c4_fallback_order c4Env c4DefField "FOO" "Foo" c4DefField.tags (by decide)⟩

/-- Claim C6: a non-pointer argument makes both the environment-mode
call (`Process`) and the flag-mode call (`ProcessFlags`) fail with the
not-a-pointer error before any field is touched, leaving the target
record exactly as it was. -/
theorem c6_non_pointer_rejected (r : Record) (showErrors : Bool) (env : Env) :
    Process (.nonPtr r) showErrors env = ⟨r, some .notAPointer⟩ ∧
    ProcessFlags (.nonPtr r) = ⟨r, [], some .notAPointer⟩ :=
  ⟨rfl, rfl⟩

/-- Claim C7: when environment-mode binding fails at the `i`-th field,
the first error is terminal for the whole call — the call returns that
error, every field at or after position `i` retains its prior value,
and every field before position `i` holds the value the per-field step
bound to it (no rollback). -/
theorem c7_first_error_terminal (env : Env) (showErrors : Bool) (l : List Field)
    (i : ℕ) (hi : i < l.length) (e : BindError)
    (hok : ∀ j (hj : j < i), (processField env (l.get ⟨j, hj.trans hi⟩)).isOk = true)
    (hfail : processField env (l.get ⟨i, hi⟩) = .error e) :
    (Process (.ptr l) showErrors env).error = some e ∧
    (Process (.ptr l) showErrors env).record.drop i = l.drop i ∧
    List.Forall₂ (fun f f' => processField env f = .ok f')
      (l.take i) ((Process (.ptr l) showErrors env).record.take i) := by
  have h := processFields_fail env l i hi e hok hfail
  simpa [Process] using h

/-- Witness for C7: three concrete fields where the second fails
integer coercion; the loop stops there, the third keeps its prior
value, and the first holds its bound value. -/
theorem c7_first_error_terminal_witness :
    (Process (.ptr [c7F0, c7F1, c7F2]) true c7Env).error =
      some (.coercion "K1" "abc" Kind.int) ∧
    (Process (.ptr [c7F0, c7F1, c7F2]) true c7Env).record.drop 1 =
      [c7F0, c7F1, c7F2].drop 1 ∧
    List.Forall₂ (fun f f' => processField c7Env f = .ok f')
      ([c7F0, c7F1, c7F2].take 1)
      ((Process (.ptr [c7F0, c7F1, c7F2]) true c7Env).record.take 1) :=
  c7_first_error_terminal c7Env true [c7F0, c7F1, c7F2] 1 (by decide)
    (.coercion "K1" "abc" Kind.int)
    (by
      intro j hj
      have hj0 : j = 0 := by omega
      subst hj0
      show (processField c7Env c7F0).isOk = true
      decide)
    (by decide)

/-- Claim C8 counterexample: the override tag the code reads is `flag`,
not `flagname` — a field named `Foo` carrying only a `flagname:"bar"`
tag registers under `"foo"` (the lower-cased field name), not under
`"bar"`. -/
theorem c8_flagname_counterexample :
    ProcessFlags (.ptr [c8Field]) =
      ⟨[c8Field], [⟨"foo", .vstring "", ""⟩], none⟩ ∧ ("foo" : String) ≠ "bar" :=
  ⟨by decide, by decide⟩

/-- Claim C8 as amended: in flag mode, for every field of a supported
kind, registration succeeds (absence of an override tag is not an
error) and the registered flag name is the value of the `flag` tag when
present, and the lower-cased field name otherwise. -/
theorem c8_flag_name_resolution (f : Field) (h : f.kind.supportedFlags = true) :
    Except.map FlagReg.name (registerField f) =
      .ok ((tagLookup f.tags "flag").getD (stringToLower f.name)) := by
  obtain ⟨n, tags, k, v⟩ := f
  cases hfl : tagLookup tags "flag" <;>
    cases k <;> simp_all [Kind.supportedFlags, registerField, flagName, Except.map]

/-- Witness for the amended C8 at `c8Field`: no `flag` tag, so the
registered name is the lower-cased field name `"foo"`. -/
theorem c8_flag_name_resolution_witness :
    Except.map FlagReg.name (registerField c8Field) =
      .ok ((tagLookup c8Field.tags "flag").getD (stringToLower c8Field.name)) :=
  c8_flag_name_resolution c8Field rfl

/-- Claim C9 counterexample: a boolean flag field with `default:"1"`
still registers with default `false` — `flag.BoolVar` is always handed
`false`, so the default tag's value is not the registered default. -/
theorem c9_bool_default_counterexample :
    registerField c9Field = .ok ⟨"verbose", .vbool false, ""⟩ ∧
    GoValue.vbool false ≠ GoValue.vbool true :=
  ⟨by decide, by decide⟩

/-- Claim C9 as amended: in flag mode the `required` tag is never
consulted (registration is invariant under adding one), a field with no
`default` tag registers the type's zero value, and a given `default`
tag registers its parsed value for the int64, uint64, float and string
kinds — while a boolean field always registers default `false`, its
`default` tag ignored. -/
theorem c9_flag_defaults (f : Field) (v : String) (h : f.kind.supportedFlags = true) :
    registerField { f with tags := ("required", v) :: f.tags } = registerField f ∧
    (tagGet f.tags "default" = "" →
      Except.map FlagReg.defVal (registerField f) = .ok (zeroValue f.kind)) ∧
    (f.kind = Kind.int64 → Except.map FlagReg.defVal (registerField f) =
      .ok (.vint (parseInt64Lax (tagGet f.tags "default")))) ∧
    (f.kind = Kind.uint64 → Except.map FlagReg.defVal (registerField f) =
      .ok (.vuint (parseUint64Lax (tagGet f.tags "default")))) ∧
    (f.kind.isFloatKind = true → Except.map FlagReg.defVal (registerField f) =
      .ok (.vfloat (parseFloatLax (tagGet f.tags "default")))) ∧
    (f.kind = Kind.string → Except.map FlagReg.defVal (registerField f) =
      .ok (.vstring (tagGet f.tags "default"))) ∧
    (f.kind = Kind.bool → Except.map FlagReg.defVal (registerField f) =
      .ok (.vbool false)) := by
  obtain ⟨n, tags, k, v0⟩ := f
  have hd := tagLookup_cons_ne "required" "default" v tags (by decide)
  have hu := tagLookup_cons_ne "required" "usage" v tags (by decide)
  have hf2 := tagLookup_cons_ne "required" "flag" v tags (by decide)
  have hz1 : parseInt64Lax "" = 0 := by decide
  have hz2 : parseUint64Lax "" = 0 := by decide
  have hz3 : parseFloatLax "" = .finite 0 := by decide
  cases k <;>
    simp_all [Kind.supportedFlags, Kind.isFloatKind, registerField, flagName,
      tagGet, zeroValue, Except.map]

/-- Witness for the amended C9 at the boolean field `c9Field` with
`default:"1"`. -/
theorem c9_flag_defaults_witness :
    registerField { c9Field with tags := ("required", "x") :: c9Field.tags } =
      registerField c9Field ∧
    (tagGet c9Field.tags "default" = "" →
      Except.map FlagReg.defVal (registerField c9Field) = .ok (zeroValue c9Field.kind)) ∧
    (c9Field.kind = Kind.int64 → Except.map FlagReg.defVal (registerField c9Field) =
      .ok (.vint (parseInt64Lax (tagGet c9Field.tags "default")))) ∧
    (c9Field.kind = Kind.uint64 → Except.map FlagReg.defVal (registerField c9Field) =
      .ok (.vuint (parseUint64Lax (tagGet c9Field.tags "default")))) ∧
    (c9Field.kind.isFloatKind = true → Except.map FlagReg.defVal (registerField c9Field) =
      .ok (.vfloat (parseFloatLax (tagGet c9Field.tags "default")))) ∧
    (c9Field.kind = Kind.string → Except.map FlagReg.defVal (registerField c9Field) =
      .ok (.vstring (tagGet c9Field.tags "default"))) ∧
    (c9Field.kind = Kind.bool → Except.map FlagReg.defVal (registerField c9Field) =
      .ok (.vbool false)) :=
  c9_flag_defaults c9Field "x" rfl

/-- Claim C10 counterexample: a field of unsupported kind is not always
error-free — a pointer-kind field tagged `required`, with its variable
unset and no default, fails the call with the required-value error
before the kind switch is ever reached. -/
theorem c10_unsupported_kind_counterexample :
    Process (.ptr [c10Field]) true c10Env =
      ⟨[c10Field], some (.requiredMissing "KP" "P")⟩ := by
  decide

/-- Claim C10 as amended: in environment mode, a field whose kind is
outside the supported set is silently skipped — no error and prior
value unchanged — provided its `env` tag is present and its fallback
resolution succeeds (the env-tag and required checks still run for such
a field and can fail the call). -/
theorem c10_unsupported_kind_skipped (env : Env) (f : Field) (k r : String)
    (hkind : f.kind.supportedProcess = false)
    (htag : tagLookup f.tags "env" = some k)
    (hres : resolveRaw k f.name f.tags (env k) = .ok r) :
    processField env f = .ok f := by
  simp only [processField, htag, hres]
  obtain ⟨n, tags, kd, v⟩ := f
  cases kd <;>
    simp_all [Kind.supportedProcess, coerceProcess, Kind.isIntKind, Kind.isUintKind,
      Kind.isFloatKind]

/-- Witness for the amended C10 at the slice-kind field `c10SkipField`
whose variable is set to `"xs"`: the field is skipped unchanged. -/
theorem c10_unsupported_kind_skipped_witness :
    processField c10SkipEnv c10SkipField = .ok c10SkipField :=
  c10_unsupported_kind_skipped c10SkipEnv c10SkipField "KQ" "xs" rfl (by decide) (by decide)

end Envconfig
